import Mathlib

/-!
Shallow embedding of `runtime/rococo/src/constants.rs` (Rococo runtime
constants): currency constants, the storage-deposit formula, and the
weight-to-fee polynomial, together with the polynomial evaluator and the
`Perbill` rational construction that the runtime configuration relies on.

`Balance` is `u128`; weights are unsigned integers.  Machine integers are
embedded as `Nat` with explicit `% 2 ^ 128` (respectively explicit upper
bounds) where overflow matters.  The evaluator (`calc`), the `Perbill`
construction and the deployed weight configuration are not part of the
visible source tree; they are modelled from the specification and marked
as such in their doc comments.
-/

namespace Rococo

/-- Largest value of the `u128` `Balance` type (`Balance::MAX`). -/
def BalanceMax : Nat := 2 ^ 128 - 1

namespace currency

/-- The number of balance UNITS per one ROC, `1_000_000_000_000` (from src). -/
def UNITS_PER_ROC : Nat := 1000000000000

/-- `ROC = UNITS_PER_ROC` (from src). -/
def ROC : Nat := UNITS_PER_ROC

/-- `MILLICENTS_PER_ROC = 1_00_000` (from src). -/
def MILLICENTS_PER_ROC : Nat := 100000

/-- `MILLICENTS = UNITS_PER_ROC / MILLICENTS_PER_ROC` (from src). -/
def MILLICENTS : Nat := UNITS_PER_ROC / MILLICENTS_PER_ROC

/-- `CENTS = MILLICENTS * 1000` (from src). -/
def CENTS : Nat := MILLICENTS * 1000

/-- `DOLLARS = CENTS * 100` (from src). -/
def DOLLARS : Nat := CENTS * 100

/-- The storage-deposit formula from src:
`items as Balance * 20 * DOLLARS + (bytes as Balance) * 100 * MILLICENTS`,
computed in the 128-bit `Balance` type (wrapping semantics made explicit by
the final `% 2 ^ 128`; the development proves the reduction never fires for
`u32` inputs). -/
def deposit (items bytes : Nat) : Nat :=
  (items * 20 * DOLLARS + bytes * 100 * MILLICENTS) % 2 ^ 128

end currency

/-- Saturating multiplication on `Balance` (clamps at `Balance::MAX`). -/
def satMul (a b : Nat) : Nat := min (a * b) BalanceMax

/-- Saturating addition on `Balance` (clamps at `Balance::MAX`). -/
def satAdd (a b : Nat) : Nat := min (a + b) BalanceMax

/-- Saturating exponentiation on `Balance` (clamps at `Balance::MAX`). -/
def satPow (w d : Nat) : Nat := min (w ^ d) BalanceMax

/-- Modelled from the spec: the saturating variant of the storage-deposit
formula prescribed by §4.3 ("saturating multiply/add to avoid overflow at
extreme inputs"), used to compare against the plain arithmetic of
`currency.deposit`. -/
def depositSaturating (items bytes : Nat) : Nat :=
  satAdd (satMul (satMul items 20) currency.DOLLARS)
    (satMul (satMul bytes 100) currency.MILLICENTS)

namespace fee

/-- The fixed fraction denominator of `Perbill`: parts per billion. -/
def perbillAccuracy : Nat := 1000000000

/-- One term of the weight-to-fee polynomial, mirroring
`WeightToFeeCoefficient`: a degree, a sign, a `Perbill` fractional
coefficient (stored as its numerator over `perbillAccuracy`) and an integer
coefficient. -/
structure WeightToFeeCoefficient where
  degree : Nat
  negative : Bool
  coeff_frac : Nat
  coeff_integer : Nat
deriving DecidableEq

/-- Modelled from the spec: `Perbill::from_rational` is not under src/; §4.2
derives the fraction numerator as `(remainder) * fraction_denominator /
divisor` with floor division, i.e. the exact rational `p / q` scaled to
parts-per-billion and floored. -/
def Perbill.from_rational (p q : Nat) : Nat := p * perbillAccuracy / q

/-- The single coefficient built by `WeightToFee::polynomial()` (from src):
`degree: 1, negative: false, coeff_frac: Perbill::from_rational(p % q, q),
coeff_integer: p / q` with `p = CENTS` and `q = 10 * ExtrinsicBaseWeight`;
the ambient configuration value `ExtrinsicBaseWeight` is passed as the
parameter `baseWeight`. -/
def coefficientOf (baseWeight : Nat) : WeightToFeeCoefficient :=
  let p := currency.CENTS
  let q := 10 * baseWeight
  { degree := 1
    negative := false
    coeff_frac := Perbill.from_rational (p % q) q
    coeff_integer := p / q }

/-- The coefficient list built by `WeightToFee::polynomial()` (from src):
`smallvec![coefficient]`, i.e. exactly one term. -/
def polynomialOf (baseWeight : Nat) : List WeightToFeeCoefficient :=
  [coefficientOf baseWeight]

/-- `WeightToFee::polynomial()` as a fallible construction: the Rust body
evaluates `p / q` and `p % q` with `q = 10 * baseWeight`, which is a
division-by-zero panic (a configuration error) when `baseWeight = 0`;
this is embedded as `none` in that case. -/
def polynomial (baseWeight : Nat) : Option (List WeightToFeeCoefficient) :=
  if 10 * baseWeight = 0 then none else some (polynomialOf baseWeight)

/-- Modelled from the spec: one term of the §4.1 evaluator.
`base = weight.saturating_pow(degree)`;
`integer_part = base.saturating_mul(coeff_integer)`;
`fraction_part = (base * coeff_frac) / perbillAccuracy` computed widened and
narrowed back with saturation; `term_value = integer_part.saturating_add
(fraction_part)`. -/
def termValue (weight : Nat) (t : WeightToFeeCoefficient) : Nat :=
  satAdd (satMul (satPow weight t.degree) t.coeff_integer)
    (min (satPow weight t.degree * t.coeff_frac / perbillAccuracy) BalanceMax)

/-- Modelled from the spec: the §4.1 signed accumulation — a running signed
total over the terms, adding `+term_value` or `-term_value` according to the
term's `negative` flag. -/
def calcSigned (poly : List WeightToFeeCoefficient) (weight : Nat) : Int :=
  poly.foldl
    (fun acc t =>
      if t.negative then acc - (termValue weight t : Int)
      else acc + (termValue weight t : Int))
    0

/-- Modelled from the spec: the §4.1 final step — a negative signed total
clamps to zero, otherwise the magnitude saturates at `Balance::MAX`. -/
def calcFee (poly : List WeightToFeeCoefficient) (weight : Nat) : Nat :=
  min (calcSigned poly weight).toNat BalanceMax

/-- Modelled from the spec: the reference weight `ExtrinsicBaseWeight` is
configuration from outside src/ (runtime-common); the deployed value is
125 microseconds of weight, `125_000_000` units. -/
def ExtrinsicBaseWeight : Nat := 125000000

/-- Modelled from the spec: the maximum block weight implied by the
configuration — the base extrinsic is priced at `CENTS / 10` and a full
block at `16 * DOLLARS`, a ratio of 16000; the deployed value is
`16000 * ExtrinsicBaseWeight = 2 * 10^12` (two seconds of weight). -/
def maxBlockWeightOf (baseWeight : Nat) : Nat := 16000 * baseWeight

/-- The spec §4.2 derivation of the integer coefficient, stated from the
spec words: `coeff_integer = f_target / w_ref` (integer division, floor). -/
def specCoeffInteger (fTarget wRef : Nat) : Nat := fTarget / wRef

/-- The spec §4.2 derivation of the fraction numerator, stated from the
spec words: `coeff_fraction_numerator = (f_target % w_ref) *
fraction_denominator / w_ref` (floor). -/
def specCoeffFracNum (fTarget wRef : Nat) : Nat :=
  fTarget % wRef * perbillAccuracy / wRef

/-- Absolute difference used by the accuracy tests:
`x.max(y) - x.min(y)`. -/
def dist (x y : Nat) : Nat := max x y - min x y

end fee

/-- Helper: the raw (un-reduced) deposit value fits in 128 bits whenever
both inputs fit in 32 bits. -/
theorem deposit_raw_lt (i b : Nat) (hi : i < 2 ^ 32) (hb : b < 2 ^ 32) :
    i * 20 * currency.DOLLARS + b * 100 * currency.MILLICENTS < 2 ^ 128 := by
  have hd : currency.DOLLARS = 1000000000000 := by decide
  have hm : currency.MILLICENTS = 10000000 := by decide
  rw [hd, hm]
  omega

/-- Claim C7: the storage-deposit formula is additive — for items `a, c`
and bytes `b, d` whose `u32` sums do not overflow,
`deposit(a + c, b + d) = deposit(a, b) + deposit(c, d)`. -/
theorem deposit_additive (a c b d : Nat)
    (hac : a + c < 2 ^ 32) (hbd : b + d < 2 ^ 32) :
    currency.deposit (a + c) (b + d) =
      currency.deposit a b + currency.deposit c d := by
  have h1 := deposit_raw_lt (a + c) (b + d) hac hbd
  have h2 := deposit_raw_lt a b (by omega) (by omega)
  have h3 := deposit_raw_lt c d (by omega) (by omega)
  unfold currency.deposit
  rw [Nat.mod_eq_of_lt h1, Nat.mod_eq_of_lt h2, Nat.mod_eq_of_lt h3]
  ring

/-- Witness for C7 at `a = 1, c = 2, b = 3, d = 4`. -/
theorem deposit_additive_witness :
    1 + 2 < 2 ^ 32 ∧ 3 + 4 < 2 ^ 32 ∧
    currency.deposit (1 + 2) (3 + 4) =
      currency.deposit 1 3 + currency.deposit 2 4 :=
  ⟨by decide, by decide, deposit_additive 1 2 3 4 (by decide) (by decide)⟩

/-- Claim C8: for every `u32` pair of inputs the deposit computation fits
in the 128-bit `Balance` type, so the plain multiplications and addition of
`deposit` agree with the saturating multiply/add prescribed by the spec. -/
theorem deposit_no_overflow (items bytes : Nat)
    (hi : items < 2 ^ 32) (hb : bytes < 2 ^ 32) :
    items * 20 * currency.DOLLARS + bytes * 100 * currency.MILLICENTS
        < 2 ^ 128 ∧
    currency.deposit items bytes = depositSaturating items bytes := by
  have hd : currency.DOLLARS = 1000000000000 := by decide
  have hm : currency.MILLICENTS = 10000000 := by decide
  refine ⟨deposit_raw_lt items bytes hi hb, ?_⟩
  unfold currency.deposit depositSaturating satMul satAdd BalanceMax
  rw [hd, hm]
  omega

/-- Witness for C8 at `items = 5, bytes = 6`. -/
theorem deposit_no_overflow_witness :
    5 < 2 ^ 32 ∧ 6 < 2 ^ 32 ∧
    (5 * 20 * currency.DOLLARS + 6 * 100 * currency.MILLICENTS < 2 ^ 128 ∧
      currency.deposit 5 6 = depositSaturating 5 6) :=
  ⟨by decide, by decide, deposit_no_overflow 5 6 (by decide) (by decide)⟩

/-- Claim C9: the currency constants realize the spec scenario scale — one
ROC is `10^12` minor units, `MILLICENTS = 10^7`, `CENTS = MILLICENTS * 1000
= 10^10` and `DOLLARS = CENTS * 100 = 10^12`. -/
theorem currency_constants_correct :
    currency.UNITS_PER_ROC = 10 ^ 12 ∧ currency.ROC = 10 ^ 12 ∧
    currency.MILLICENTS = 10 ^ 7 ∧
    currency.CENTS = currency.MILLICENTS * 1000 ∧ currency.CENTS = 10 ^ 10 ∧
    currency.DOLLARS = currency.CENTS * 100 ∧ currency.DOLLARS = 10 ^ 12 := by
  refine ⟨rfl, rfl, ?_, rfl, ?_, rfl, ?_⟩ <;> decide

/-- Helper: the integer coefficient built by the source,
`CENTS / (10 * B)`, equals `10^9 / B`. -/
theorem coeff_integer_eq (B : Nat) :
    (fee.coefficientOf B).coeff_integer = 1000000000 / B := by
  show currency.CENTS / (10 * B) = 1000000000 / B
  rw [← Nat.div_div_eq_div_mul]
  have h10 : currency.CENTS / 10 = 1000000000 := by decide
  rw [h10]

/-- Helper: the fraction numerator built by the source,
`Perbill::from_rational(CENTS % (10 * B), 10 * B)`, equals
`(10^9 % B) * 10^9 / B`. -/
theorem coeff_frac_eq (B : Nat) :
    (fee.coefficientOf B).coeff_frac = 1000000000 % B * 1000000000 / B := by
  show currency.CENTS % (10 * B) * fee.perbillAccuracy / (10 * B) = _
  have hc : currency.CENTS = 10 * 1000000000 := by decide
  have ha : fee.perbillAccuracy = 1000000000 := rfl
  rw [hc, ha, Nat.mul_mod_mul_left, mul_assoc,
    Nat.mul_div_mul_left _ _ (by norm_num : (0:Nat) < 10)]

/-- Claim C3: the coefficient computed by `WeightToFee::polynomial()`
(`p / q` and `Perbill::from_rational(p % q, q)` with `p = CENTS`,
`q = 10 * ExtrinsicBaseWeight`) equals the spec §4.2 derivation at
`f_target = CENTS / 10`, `w_ref = ExtrinsicBaseWeight`, for every positive
base weight. -/
theorem polynomial_matches_spec_derivation (B : Nat) (hB : 0 < B) :
    (fee.coefficientOf B).coeff_integer =
        fee.specCoeffInteger (currency.CENTS / 10) B ∧
    (fee.coefficientOf B).coeff_frac =
        fee.specCoeffFracNum (currency.CENTS / 10) B := by
  have h10 : currency.CENTS / 10 = 1000000000 := by decide
  have ha : fee.perbillAccuracy = 1000000000 := rfl
  constructor
  · rw [coeff_integer_eq, fee.specCoeffInteger, h10]
  · rw [coeff_frac_eq, fee.specCoeffFracNum, h10, ha]

/-- Witness for C3 at `B = 7`. -/
theorem polynomial_matches_spec_derivation_witness :
    0 < 7 ∧
    ((fee.coefficientOf 7).coeff_integer =
        fee.specCoeffInteger (currency.CENTS / 10) 7 ∧
      (fee.coefficientOf 7).coeff_frac =
        fee.specCoeffFracNum (currency.CENTS / 10) 7) :=
  ⟨by decide, polynomial_matches_spec_derivation 7 (by decide)⟩

/-- Claim C6: constructing the fee polynomial fails exactly when the
reference weight is zero — `polynomial` is `none` iff
`ExtrinsicBaseWeight = 0`, and succeeds (returning the coefficient list)
for every positive base weight. -/
theorem polynomial_fails_iff_zero_base (B : Nat) :
    (fee.polynomial B = none ↔ B = 0) ∧
    (fee.polynomial B = some (fee.polynomialOf B) ↔ B ≠ 0) := by
  unfold fee.polynomial
  constructor
  · constructor
    · intro h
      by_contra hB
      rw [if_neg (by omega)] at h
      exact Option.noConfusion h
    · intro h
      rw [if_pos (by omega)]
  · constructor
    · intro h hB
      rw [if_pos (by omega)] at h
      exact Option.noConfusion h
    · intro h
      rw [if_neg (by omega)]

/-- Claim C10: `WeightToFee::polynomial()` is well formed by construction
for every positive base weight — construction succeeds, the list has
exactly one term, that term is linear (`degree = 1`) and non-negative, and
the `Perbill` numerator is strictly below the denominator `10^9`. -/
theorem polynomial_well_formed (B : Nat) (hB : 0 < B) :
    fee.polynomial B = some (fee.polynomialOf B) ∧
    (fee.polynomialOf B).length = 1 ∧
    (fee.coefficientOf B).degree = 1 ∧
    (fee.coefficientOf B).negative = false ∧
    (fee.coefficientOf B).coeff_frac < fee.perbillAccuracy := by
  refine ⟨?_, rfl, rfl, rfl, ?_⟩
  · unfold fee.polynomial
    rw [if_neg (by omega)]
  · rw [coeff_frac_eq]
    have hmod : 1000000000 % B < B := Nat.mod_lt _ hB
    have ha : fee.perbillAccuracy = 1000000000 := rfl
    rw [ha, Nat.div_lt_iff_lt_mul hB]
    omega

/-- Witness for C10 at `B = ExtrinsicBaseWeight = 125000000`. -/
theorem polynomial_well_formed_witness :
    0 < fee.ExtrinsicBaseWeight ∧
    (fee.polynomial fee.ExtrinsicBaseWeight =
        some (fee.polynomialOf fee.ExtrinsicBaseWeight) ∧
      (fee.polynomialOf fee.ExtrinsicBaseWeight).length = 1 ∧
      (fee.coefficientOf fee.ExtrinsicBaseWeight).degree = 1 ∧
      (fee.coefficientOf fee.ExtrinsicBaseWeight).negative = false ∧
      (fee.coefficientOf fee.ExtrinsicBaseWeight).coeff_frac <
        fee.perbillAccuracy) :=
  ⟨by decide, polynomial_well_formed fee.ExtrinsicBaseWeight (by decide)⟩

/-- Helper: evaluation of a one-term, non-negative polynomial is the
clamped term value. -/
theorem calcFee_single (t : fee.WeightToFeeCoefficient)
    (ht : t.negative = false) (w : Nat) :
    fee.calcFee [t] w = min (fee.termValue w t) BalanceMax := by
  unfold fee.calcFee fee.calcSigned
  simp [ht]

/-- Helper: `termValue` is monotone in the weight. -/
theorem termValue_mono (t : fee.WeightToFeeCoefficient) {w1 w2 : Nat}
    (h : w1 ≤ w2) : fee.termValue w1 t ≤ fee.termValue w2 t := by
  have hbase : satPow w1 t.degree ≤ satPow w2 t.degree :=
    min_le_min (Nat.pow_le_pow_left h _) le_rfl
  have hint : satMul (satPow w1 t.degree) t.coeff_integer ≤
      satMul (satPow w2 t.degree) t.coeff_integer :=
    min_le_min (Nat.mul_le_mul_right _ hbase) le_rfl
  have hfrac :
      min (satPow w1 t.degree * t.coeff_frac / fee.perbillAccuracy)
          BalanceMax ≤
        min (satPow w2 t.degree * t.coeff_frac / fee.perbillAccuracy)
          BalanceMax :=
    min_le_min (Nat.div_le_div_right (Nat.mul_le_mul_right _ hbase)) le_rfl
  exact min_le_min (Nat.add_le_add hint hfrac) le_rfl

/-- Claim C4: for every base weight and every weight (including `0` and
`Weight::MAX`), evaluating the polynomial returned by
`WeightToFee::polynomial()` yields a `Balance` between `0` and
`Balance::MAX`: the negative-total clamp and the saturating arithmetic
never leave that range. -/
theorem calcFee_bounded (B w : Nat) :
    0 ≤ fee.calcFee (fee.polynomialOf B) w ∧
    fee.calcFee (fee.polynomialOf B) w ≤ BalanceMax :=
  ⟨Nat.zero_le _, Nat.min_le_right _ _⟩

/-- Claim C5: evaluation of the single-term, non-negative polynomial
produced by `WeightToFee::polynomial()` is monotone in the weight. -/
theorem calcFee_monotone (B w1 w2 : Nat) (h : w1 < w2) :
    fee.calcFee (fee.polynomialOf B) w1 ≤ fee.calcFee (fee.polynomialOf B) w2 := by
  have ht : (fee.coefficientOf B).negative = false := rfl
  show fee.calcFee [fee.coefficientOf B] w1 ≤ fee.calcFee [fee.coefficientOf B] w2
  rw [calcFee_single _ ht, calcFee_single _ ht]
  exact min_le_min (termValue_mono _ h.le) le_rfl

/-- Witness for C5 at `B = ExtrinsicBaseWeight`, `w1 = 1`, `w2 = 2`. -/
theorem calcFee_monotone_witness :
    1 < 2 ∧
    fee.calcFee (fee.polynomialOf fee.ExtrinsicBaseWeight) 1 ≤
      fee.calcFee (fee.polynomialOf fee.ExtrinsicBaseWeight) 2 :=
  ⟨by decide, calcFee_monotone fee.ExtrinsicBaseWeight 1 2 (by decide)⟩

/-- Helper: for a positive base weight and any weight up to `10^16`, none
of the evaluator's clamps fires, and the fee reduces to the plain linear
expression `w * (10^9 / B) + w * ((10^9 % B) * 10^9 / B) / 10^9`. -/
theorem calcFee_single_linear (B w : Nat) (h1 : 0 < B) (hw : w ≤ 10 ^ 16) :
    fee.calcFee (fee.polynomialOf B) w =
      w * (1000000000 / B) +
        w * (1000000000 % B * 1000000000 / B) / 1000000000 := by
  have ht : (fee.coefficientOf B).negative = false := rfl
  have hd : (fee.coefficientOf B).degree = 1 := rfl
  have hci := coeff_integer_eq B
  have hfr := coeff_frac_eq B
  have ha : fee.perbillAccuracy = 1000000000 := rfl
  show fee.calcFee [fee.coefficientOf B] w = _
  rw [calcFee_single _ ht]
  unfold fee.termValue
  rw [hd, hci, hfr, ha]
  have hp : satPow w 1 = w := by
    simp only [satPow, pow_one, BalanceMax]
    omega
  rw [hp]
  have hcib : 1000000000 / B ≤ 1000000000 := Nat.div_le_self _ _
  have hfb : 1000000000 % B * 1000000000 / B < 1000000000 := by
    rw [Nat.div_lt_iff_lt_mul h1]
    have hmod : 1000000000 % B < B := Nat.mod_lt _ h1
    omega
  have hm1 : w * (1000000000 / B) ≤ 10 ^ 16 * 1000000000 :=
    Nat.mul_le_mul hw hcib
  have hm2 : w * (1000000000 % B * 1000000000 / B) ≤ w * 1000000000 :=
    Nat.mul_le_mul_left w hfb.le
  have e1 : satMul w (1000000000 / B) = w * (1000000000 / B) := by
    simp only [satMul, BalanceMax]
    omega
  have e2 : min (w * (1000000000 % B * 1000000000 / B) / 1000000000)
      BalanceMax = w * (1000000000 % B * 1000000000 / B) / 1000000000 := by
    simp only [BalanceMax]
    omega
  have e3 : satAdd (w * (1000000000 / B))
      (w * (1000000000 % B * 1000000000 / B) / 1000000000) =
        w * (1000000000 / B) +
          w * (1000000000 % B * 1000000000 / B) / 1000000000 := by
    simp only [satAdd, BalanceMax]
    omega
  rw [e1, e2, e3]
  simp only [BalanceMax]
  omega

/-- Claim C1: for every positive base weight up to `10^15` (in particular
the deployed `ExtrinsicBaseWeight`), evaluating the fee polynomial at the
base weight itself yields a fee within one `MILLICENTS` of `CENTS / 10`. -/
theorem base_weight_fee_accurate (B : Nat) (h1 : 0 < B)
    (h2 : B ≤ 10 ^ 15) :
    fee.dist (fee.calcFee (fee.polynomialOf B) B) (currency.CENTS / 10) <
      currency.MILLICENTS := by
  rw [calcFee_single_linear B B h1 (by omega)]
  have hC : currency.CENTS / 10 = 1000000000 := by decide
  have hM : currency.MILLICENTS = 10000000 := by decide
  rw [hC, hM]
  unfold fee.dist
  have hmod : 1000000000 % B < B := Nat.mod_lt _ h1
  have hq : B * (1000000000 / B) + 1000000000 % B = 1000000000 :=
    Nat.div_add_mod 1000000000 B
  have hfn : B * (1000000000 % B * 1000000000 / B) +
      1000000000 % B * 1000000000 % B = 1000000000 % B * 1000000000 :=
    Nat.div_add_mod (1000000000 % B * 1000000000) B
  have hs : 1000000000 % B * 1000000000 % B < B :=
    Nat.mod_lt _ h1
  omega

/-- Witness for C1 at the deployed `ExtrinsicBaseWeight`. -/
theorem base_weight_fee_accurate_witness :
    0 < fee.ExtrinsicBaseWeight ∧ fee.ExtrinsicBaseWeight ≤ 10 ^ 15 ∧
    fee.dist
        (fee.calcFee (fee.polynomialOf fee.ExtrinsicBaseWeight)
          fee.ExtrinsicBaseWeight)
        (currency.CENTS / 10) < currency.MILLICENTS :=
  ⟨by decide, by decide,
    base_weight_fee_accurate fee.ExtrinsicBaseWeight (by decide) (by decide)⟩

/-- Claim C2: for every positive base weight up to `10^11` (in particular
the deployed `ExtrinsicBaseWeight`), evaluating the fee polynomial at the
maximum block weight (16000 times the base weight, the ratio implied by the
configuration) yields a fee within one `MILLICENTS` of `16 * DOLLARS`. -/
theorem full_block_fee_accurate (B : Nat) (h1 : 0 < B)
    (h2 : B ≤ 10 ^ 11) :
    fee.dist (fee.calcFee (fee.polynomialOf B) (fee.maxBlockWeightOf B))
        (16 * currency.DOLLARS) < currency.MILLICENTS := by
  unfold fee.maxBlockWeightOf
  rw [calcFee_single_linear B (16000 * B) h1 (by omega)]
  have hD : 16 * currency.DOLLARS = 16000000000000 := by decide
  have hM : currency.MILLICENTS = 10000000 := by decide
  rw [hD, hM]
  unfold fee.dist
  have hmod : 1000000000 % B < B := Nat.mod_lt _ h1
  have hq : B * (1000000000 / B) + 1000000000 % B = 1000000000 :=
    Nat.div_add_mod 1000000000 B
  have hfn : B * (1000000000 % B * 1000000000 / B) +
      1000000000 % B * 1000000000 % B = 1000000000 % B * 1000000000 :=
    Nat.div_add_mod (1000000000 % B * 1000000000) B
  have hs : 1000000000 % B * 1000000000 % B < B :=
    Nat.mod_lt _ h1
  have hassoc1 : 16000 * B * (1000000000 / B) = 16000 * (B * (1000000000 / B)) :=
    mul_assoc 16000 B (1000000000 / B)
  have hassoc2 : 16000 * B * (1000000000 % B * 1000000000 / B) =
      16000 * (B * (1000000000 % B * 1000000000 / B)) :=
    mul_assoc 16000 B (1000000000 % B * 1000000000 / B)
  rw [hassoc1, hassoc2]
  omega

/-- Witness for C2 at the deployed `ExtrinsicBaseWeight`. -/
theorem full_block_fee_accurate_witness :
    0 < fee.ExtrinsicBaseWeight ∧ fee.ExtrinsicBaseWeight ≤ 10 ^ 11 ∧
    fee.dist
        (fee.calcFee (fee.polynomialOf fee.ExtrinsicBaseWeight)
          (fee.maxBlockWeightOf fee.ExtrinsicBaseWeight))
        (16 * currency.DOLLARS) < currency.MILLICENTS :=
  ⟨by decide, by decide,
    full_block_fee_accurate fee.ExtrinsicBaseWeight (by decide) (by decide)⟩

end Rococo
